import Mathlib

/-!
Verification of the connection-handle core in `src/client.rs` (crate
scupt-net). The shallow embedding below translates `ClientInner` and its
operations `connect`, `send`, `recv`, `is_connected` into pure Lean
functions. External collaborators are passed in as oracles:

* the event sink dial (`self.node.default_event_sink().connect(...)`) is an
  oracle `dials : Nat → Except (ET ε) (Option (Endpoint M ε))` giving the
  outcome of the i-th dial attempt (0-indexed), matching the Rust type
  `Res<Option<Arc<dyn EndpointAsync<M>>>>`;
* address parsing (`SocketAddr::from_str`, from the standard library) is an
  oracle `parse : String → Option SockAddr`; the source unwraps its result,
  which we model as a `panicked` outcome when it is `none`;
* an endpoint (`Arc<dyn EndpointAsync<M>>`) is a record of its send and
  receive behaviours.

The `connect` retry loop need not terminate (retry_max = 0 retries forever),
so it is embedded with a fuel parameter: `none` means the loop did not exit
within the given fuel. Lock usage in `send` and `recv` is recorded as an
event trace so that the lock discipline stated in the spec can be checked
against the order of operations in the source.
-/

namespace ScuptNet

/-- Error type, abstracting `scupt_util::error_type::ET`. The variant
`NetNotConnected` is the one this core produces itself; every other variant
is abstracted as `errOther` over an arbitrary payload type. -/
inductive ET (ε : Type) where
  | NetNotConnected : ET ε
  | errOther : ε → ET ε
deriving DecidableEq, Repr

/-- A parsed socket address (`std::net::SocketAddr`); its structure is
irrelevant to this core, which only threads it through to the dial. -/
structure SockAddr where
  ip : Nat
  port : Nat
deriving DecidableEq, Repr

/-- An established endpoint (`Arc<dyn EndpointAsync<M>>`), modelled by its
observable behaviour: the result its send operation returns for a message,
and the result its receive operation returns. -/
structure Endpoint (M ε : Type) where
  sendFn : M → Except (ET ε) Unit
  recvFn : Except (ET ε) M

/-- The connect options `OptClientConnect` of the source: `retry_max` is the
retry budget (0 means retry indefinitely), `retry_wait_ms` the sleep between
failed attempts. -/
structure OptClientConnect where
  retry_max : Nat
  retry_wait_ms : Nat
deriving DecidableEq, Repr

/-- `OptClientConnect::new()` from the source. -/
def OptClientConnect.new : OptClientConnect :=
  { retry_max := 0, retry_wait_ms := 50 }

/-- The client state `ClientInner<M>`: node id, server address string, and
the mutex-protected endpoint slot `opt_endpoint`. The `node` field of the
source only serves to reach the dial oracle and carries no state relevant
to these claims. -/
structure ClientInner (M ε : Type) where
  nid : Nat
  addr : String
  opt_endpoint : Option (Endpoint M ε)

/-- Events recording lock usage and endpoint delegation inside one public
operation, in source order. -/
inductive Event (M : Type) where
  | lockAcquire : Event M
  | lockRelease : Event M
  | epSend : M → Event M
  | epRecv : Event M

/-- Whether an event is an endpoint I/O operation. -/
def Event.isEp {M : Type} : Event M → Bool
  | Event.epSend _ => true
  | Event.epRecv => true
  | _ => false

/-- Scans an event trace and reports whether some endpoint I/O event occurs
while the lock is held; the second argument is the lock state at entry. -/
def lockHeldDuringEp {M : Type} : List (Event M) → Bool → Bool
  | [], _ => false
  | Event.lockAcquire :: rest, _ => lockHeldDuringEp rest true
  | Event.lockRelease :: rest, _ => lockHeldDuringEp rest false
  | Event.epSend _ :: rest, held => held || lockHeldDuringEp rest held
  | Event.epRecv :: rest, held => held || lockHeldDuringEp rest held

/-- How a `connect` call ends: `panicked` models the `unwrap()` on the
address parse blowing up; `returned r` models the function returning `r`. -/
inductive ConnectOutcome (ε : Type) where
  | panicked : ConnectOutcome ε
  | returned : Except (ET ε) Unit → ConnectOutcome ε

/-- How one run of the retry loop exits: by panicking on the address parse,
or by leaving the loop with the final value of the local `opt_ep`. -/
inductive LoopExit (M ε : Type) where
  | panicked : LoopExit M ε
  | done : Option (Endpoint M ε) → LoopExit M ε

/-- The retry loop of `ClientInner::connect` (src/client.rs lines 136-154),
embedded with fuel. Arguments after the oracles: remaining fuel, the
counter `n`, and the index `i` of the next dial attempt (also the number of
dials made so far). Returns `none` when the loop has not exited within the
fuel, otherwise the loop exit together with the total number of dial
attempts made. Faithful details: the guard is `retry_max == 0 || n > 0`;
the address is parsed (and unwrapped) on every iteration before dialing;
an `Ok` dial result breaks immediately, whatever endpoint option it
carries; `n` is decremented only on the error path and only when positive. -/
def connectLoop {M ε : Type} (retry_max : Nat) (parsed : Option SockAddr)
    (dials : Nat → Except (ET ε) (Option (Endpoint M ε))) :
    Nat → Nat → Nat → Option (LoopExit M ε × Nat)
  | 0, n, i =>
    if retry_max = 0 ∨ 0 < n then none else some (LoopExit.done none, i)
  | fuel + 1, n, i =>
    if retry_max = 0 ∨ 0 < n then
      match parsed with
      | none => some (LoopExit.panicked, i)
      | some _ =>
        match dials i with
        | Except.ok e => some (LoopExit.done e, i + 1)
        | Except.error _ =>
          connectLoop retry_max parsed dials fuel
            (if 0 < n then n - 1 else n) (i + 1)
    else some (LoopExit.done none, i)

/-- Result of a `connect` call: its outcome, the number of dial attempts
made, and the client state afterwards. -/
structure ConnectResult (M ε : Type) where
  outcome : ConnectOutcome ε
  attempts : Nat
  state : ClientInner M ε

/-- `ClientInner::connect` (src/client.rs lines 134-161): run the retry
loop; afterwards, if the loop produced an endpoint, store it in the slot
(replacing any previous endpoint); return `Ok(())`. A panic leaves the
slot untouched. `none` means the loop did not exit within the fuel. -/
def ClientInner.connect {M ε : Type} (c : ClientInner M ε)
    (opt : OptClientConnect) (parse : String → Option SockAddr)
    (dials : Nat → Except (ET ε) (Option (Endpoint M ε)))
    (fuel : Nat) : Option (ConnectResult M ε) :=
  match connectLoop opt.retry_max (parse c.addr) dials fuel opt.retry_max 0 with
  | none => none
  | some (LoopExit.panicked, i) =>
    some { outcome := ConnectOutcome.panicked, attempts := i, state := c }
  | some (LoopExit.done opt_ep, i) =>
    some { outcome := ConnectOutcome.returned (Except.ok ()),
           attempts := i,
           state :=
             match opt_ep with
             | some e => { c with opt_endpoint := some e }
             | none => c }

/-- Result of a `send` call: the returned value, the client state
afterwards, and the lock/endpoint event trace. -/
structure SendResult (M ε : Type) where
  result : Except (ET ε) Unit
  state : ClientInner M ε
  events : List (Event M)

/-- Result of a `recv` call. -/
structure RecvResult (M ε : Type) where
  result : Except (ET ε) M
  state : ClientInner M ε
  events : List (Event M)

/-- `ClientInner::send` (src/client.rs lines 164-173): lock the slot; if it
holds an endpoint, delegate to its send while still holding the lock (the
guard is dropped only at function end) and propagate the result; otherwise
return `ET::NetNotConnected`. The slot is never modified. -/
def ClientInner.send {M ε : Type} (c : ClientInner M ε) (message : M) :
    SendResult M ε :=
  match c.opt_endpoint with
  | some e =>
    { result := e.sendFn message,
      state := c,
      events := [Event.lockAcquire, Event.epSend message, Event.lockRelease] }
  | none =>
    { result := Except.error ET.NetNotConnected,
      state := c,
      events := [Event.lockAcquire, Event.lockRelease] }

/-- `ClientInner::recv` (src/client.rs lines 176-185): symmetric to send. -/
def ClientInner.recv {M ε : Type} (c : ClientInner M ε) : RecvResult M ε :=
  match c.opt_endpoint with
  | some e =>
    { result := e.recvFn,
      state := c,
      events := [Event.lockAcquire, Event.epRecv, Event.lockRelease] }
  | none =>
    { result := Except.error ET.NetNotConnected,
      state := c,
      events := [Event.lockAcquire, Event.lockRelease] }

/-- `ClientInner::is_connected` (src/client.rs lines 127-131): lock the
slot, return whether it holds an endpoint. The pair also returns the state
afterwards, to express absence of side effects. -/
def ClientInner.is_connected {M ε : Type} (c : ClientInner M ε) :
    Bool × ClientInner M ε :=
  (c.opt_endpoint.isSome, c)

/-! ## Lemmas about the retry loop -/

/-- The attempt counter never decreases across a loop run. -/
theorem connectLoop_attempts_le {M ε : Type} (rm : Nat) (p : Option SockAddr)
    (dials : Nat → Except (ET ε) (Option (Endpoint M ε))) :
    ∀ fuel n i ex a, connectLoop rm p dials fuel n i = some (ex, a) → i ≤ a := by
  intro fuel
  induction fuel with
  | zero =>
    intro n i ex a h
    simp only [connectLoop] at h
    split at h
    · exact absurd h (by simp)
    · injection h with h2
      injection h2 with h3 h4
      omega
  | succ fuel ih =>
    intro n i ex a h
    simp only [connectLoop] at h
    split at h
    · split at h
      · injection h with h2
        injection h2 with h3 h4
        omega
      · split at h
        · injection h with h2
          injection h2 with h3 h4
          omega
        · have := ih _ _ _ _ h
          omega
    · injection h with h2
      injection h2 with h3 h4
      omega

/-- When every dial fails and the budget is positive, the loop makes exactly
`n` further dial attempts and exits with no endpoint. -/
theorem connectLoop_allFail {M ε : Type} (rm : Nat) (a : SockAddr)
    (dials : Nat → Except (ET ε) (Option (Endpoint M ε)))
    (hrm : rm ≠ 0) (hfail : ∀ j, ∃ er, dials j = Except.error er) :
    ∀ fuel n i, n ≤ fuel →
      connectLoop rm (some a) dials fuel n i = some (LoopExit.done none, i + n) := by
  intro fuel
  induction fuel with
  | zero =>
    intro n i hn
    have hn0 : n = 0 := Nat.le_zero.mp hn
    subst hn0
    simp only [connectLoop]
    rw [if_neg (by omega : ¬(rm = 0 ∨ 0 < 0))]
    simp
  | succ fuel ih =>
    intro n i hn
    by_cases h0 : n = 0
    · subst h0
      simp only [connectLoop]
      rw [if_neg (by omega : ¬(rm = 0 ∨ 0 < 0))]
      simp
    · simp only [connectLoop]
      rw [if_pos (Or.inr (Nat.pos_of_ne_zero h0))]
      obtain ⟨er, hd⟩ := hfail i
      simp only [hd]
      rw [if_pos (Nat.pos_of_ne_zero h0)]
      have h2 := ih (n - 1) (i + 1) (by omega)
      rw [h2]
      have h3 : i + 1 + (n - 1) = i + n := by omega
      rw [h3]

/-- With an unbounded budget (retry_max = 0) and a dial that always fails,
the loop never exits, whatever the fuel. -/
theorem connectLoop_allFail_unbounded {M ε : Type} (a : SockAddr)
    (dials : Nat → Except (ET ε) (Option (Endpoint M ε)))
    (hfail : ∀ j, ∃ er, dials j = Except.error er) :
    ∀ fuel n i, connectLoop 0 (some a) dials fuel n i = none := by
  intro fuel
  induction fuel with
  | zero =>
    intro n i
    simp [connectLoop]
  | succ fuel ih =>
    intro n i
    simp only [connectLoop]
    rw [if_pos (Or.inl trivial)]
    obtain ⟨er, hd⟩ := hfail i
    simp only [hd]
    exact ih _ _

/-- A dial that succeeds on 0-indexed attempt `j` after failures makes the
loop exit on that attempt with the carried endpoint option, whatever the
remaining budget allows. -/
theorem connectLoop_success {M ε : Type} (rm : Nat) (a : SockAddr)
    (dials : Nat → Except (ET ε) (Option (Endpoint M ε)))
    (v : Option (Endpoint M ε)) :
    ∀ j fuel n i, (rm = 0 ∨ j < n) → j < fuel →
      (∀ t, t < j → ∃ er, dials (i + t) = Except.error er) →
      dials (i + j) = Except.ok v →
      connectLoop rm (some a) dials fuel n i
        = some (LoopExit.done v, i + j + 1) := by
  intro j
  induction j with
  | zero =>
    intro fuel n i hg hf hfail hok
    obtain ⟨fuel, rfl⟩ : ∃ f, fuel = f + 1 := ⟨fuel - 1, by omega⟩
    have hok2 : dials i = Except.ok v := by simpa using hok
    simp only [connectLoop]
    rw [if_pos (by omega : rm = 0 ∨ 0 < n)]
    simp only [hok2]
  | succ j ih =>
    intro fuel n i hg hf hfail hok
    obtain ⟨fuel, rfl⟩ : ∃ f, fuel = f + 1 := ⟨fuel - 1, by omega⟩
    obtain ⟨er, hd⟩ := hfail 0 (by omega)
    have hd2 : dials i = Except.error er := by simpa using hd
    simp only [connectLoop]
    rw [if_pos (by omega : rm = 0 ∨ 0 < n)]
    simp only [hd2]
    have hg2 : rm = 0 ∨ j < (if 0 < n then n - 1 else n) := by
      rcases hg with h | h
      · exact Or.inl h
      · right
        rw [if_pos (by omega)]
        omega
    have hfail2 : ∀ t, t < j → ∃ er2, dials (i + 1 + t) = Except.error er2 := by
      intro t ht
      have := hfail (t + 1) (by omega)
      have harith : i + (t + 1) = i + 1 + t := by omega
      rwa [harith] at this
    have hok2 : dials (i + 1 + j) = Except.ok v := by
      have harith : i + (j + 1) = i + 1 + j := by omega
      rwa [harith] at hok
    have hrec := ih fuel (if 0 < n then n - 1 else n) (i + 1) hg2 (by omega)
      hfail2 hok2
    rw [hrec]
    simp only [Option.some.injEq, Prod.mk.injEq]
    exact ⟨trivial, by omega⟩

/-- With a positive budget the loop always exits within fuel `n`, making at
most `n` further dial attempts, whatever the parse and dial outcomes. -/
theorem connectLoop_terminates {M ε : Type} (rm : Nat) (p : Option SockAddr)
    (dials : Nat → Except (ET ε) (Option (Endpoint M ε)))
    (hrm : rm ≠ 0) :
    ∀ fuel n i, n ≤ fuel →
      ∃ ex a2, connectLoop rm p dials fuel n i = some (ex, a2) ∧ a2 ≤ i + n := by
  intro fuel
  induction fuel with
  | zero =>
    intro n i hn
    have hn0 : n = 0 := Nat.le_zero.mp hn
    subst hn0
    simp only [connectLoop]
    rw [if_neg (by omega : ¬(rm = 0 ∨ 0 < 0))]
    exact ⟨_, _, rfl, by omega⟩
  | succ fuel ih =>
    intro n i hn
    by_cases h0 : n = 0
    · subst h0
      simp only [connectLoop]
      rw [if_neg (by omega : ¬(rm = 0 ∨ 0 < 0))]
      exact ⟨_, _, rfl, by omega⟩
    · simp only [connectLoop]
      rw [if_pos (Or.inr (Nat.pos_of_ne_zero h0))]
      cases p with
      | none => exact ⟨_, _, rfl, by omega⟩
      | some sa =>
        cases hd : dials i with
        | ok e =>
          exact ⟨_, _, rfl, by omega⟩
        | error er =>
          rw [if_pos (Nat.pos_of_ne_zero h0)]
          obtain ⟨ex, a2, hrun, hle⟩ := ih (n - 1) (i + 1) (by omega)
          exact ⟨ex, a2, hrun, by omega⟩

/-- The loop result depends only on the dial outcomes at the attempt
indices it actually consults: any dial oracle agreeing below the attempt
count yields the same run. -/
theorem connectLoop_congr {M ε : Type} (rm : Nat) (p : Option SockAddr)
    (dials dials2 : Nat → Except (ET ε) (Option (Endpoint M ε))) :
    ∀ fuel n i ex a2, connectLoop rm p dials fuel n i = some (ex, a2) →
      (∀ t, i ≤ t → t < a2 → dials2 t = dials t) →
      connectLoop rm p dials2 fuel n i = some (ex, a2) := by
  intro fuel
  induction fuel with
  | zero =>
    intro n i ex a2 h hag
    simp only [connectLoop] at h ⊢
    by_cases hg : rm = 0 ∨ 0 < n
    · rw [if_pos hg] at h
      exact absurd h (by simp)
    · rw [if_neg hg] at h ⊢
      exact h
  | succ fuel ih =>
    intro n i ex a2 h hag
    simp only [connectLoop] at h ⊢
    by_cases hg : rm = 0 ∨ 0 < n
    · rw [if_pos hg] at h ⊢
      cases p with
      | none => exact h
      | some sa =>
        cases hd : dials i with
        | ok e =>
          simp only [hd] at h
          injection h with h2
          injection h2 with h3 h4
          subst h3
          subst h4
          have hagi : dials2 i = dials i := hag i (Nat.le_refl i) (by omega)
          simp only [hagi, hd]
        | error er =>
          simp only [hd] at h
          have hi : i + 1 ≤ a2 := connectLoop_attempts_le rm (some sa) dials _ _ _ _ _ h
          have hagi : dials2 i = dials i := hag i (Nat.le_refl i) (by omega)
          simp only [hagi, hd]
          exact ih _ _ _ _ h (fun t ht1 ht2 => hag t (by omega) ht2)
    · rw [if_neg hg] at h ⊢
      exact h

/-! ## Concrete instances used by witnesses and counterexamples -/

/-- A concrete endpoint whose send and receive both succeed. -/
def epA : Endpoint Nat Nat :=
  { sendFn := fun _ => Except.ok (), recvFn := Except.ok 7 }

/-- A concrete endpoint whose send and receive both fail with a transport
error. -/
def epB : Endpoint Nat Nat :=
  { sendFn := fun _ => Except.error (ET.errOther 3),
    recvFn := Except.error (ET.errOther 4) }

/-- A client whose endpoint slot is empty. -/
def clientEmpty : ClientInner Nat Nat :=
  { nid := 1, addr := "127.0.0.1:8080", opt_endpoint := none }

/-- A client whose endpoint slot holds `epA`. -/
def clientConnA : ClientInner Nat Nat :=
  { nid := 1, addr := "127.0.0.1:8080", opt_endpoint := some epA }

/-- A parse oracle that always succeeds. -/
def parseOkFn : String → Option SockAddr :=
  fun _ => some { ip := 2130706433, port := 8080 }

/-- A parse oracle that always fails (the address string is invalid). -/
def parseFailFn : String → Option SockAddr :=
  fun _ => none

/-- A dial oracle that fails on every attempt. -/
def dialsAlwaysFail : Nat → Except (ET Nat) (Option (Endpoint Nat Nat)) :=
  fun _ => Except.error (ET.errOther 0)

/-- A dial oracle that fails on attempt 0 and returns `epB` on attempt 1. -/
def dialsFailThenB : Nat → Except (ET Nat) (Option (Endpoint Nat Nat)) :=
  fun i => if i = 0 then Except.error (ET.errOther 0) else Except.ok (some epB)

/-- A dial oracle that fails on attempt 0 and reports success carrying no
endpoint on attempt 1. -/
def dialsFailThenOkNone : Nat → Except (ET Nat) (Option (Endpoint Nat Nat)) :=
  fun i => if i = 0 then Except.error (ET.errOther 0) else Except.ok none

/-! ## Claim theorems -/

/-- C1: for every options value and every parse and dial oracle under which
the embedded retry loop exits without panicking, the value returned by
connect is Ok. A dial error is never propagated to the caller of connect. -/
theorem C1_connect_never_surfaces_dial_error {M ε : Type}
    (c : ClientInner M ε) (opt : OptClientConnect)
    (parse : String → Option SockAddr)
    (dials : Nat → Except (ET ε) (Option (Endpoint M ε)))
    (fuel : Nat) (res : ConnectResult M ε) (r : Except (ET ε) Unit)
    (hres : c.connect opt parse dials fuel = some res)
    (hout : res.outcome = ConnectOutcome.returned r) :
    r = Except.ok () := by
  unfold ClientInner.connect at hres
  cases hcl : connectLoop opt.retry_max (parse c.addr) dials fuel opt.retry_max 0 with
  | none =>
    rw [hcl] at hres
    exact absurd hres (by simp)
  | some pr =>
    obtain ⟨ex, a⟩ := pr
    rw [hcl] at hres
    cases ex with
    | panicked =>
      injection hres with h2
      rw [← h2] at hout
      exact absurd hout (by simp)
    | done opt_ep =>
      injection hres with h2
      rw [← h2] at hout
      simp only at hout
      injection hout with h3
      exact h3.symm

/-- Witness for C1 at a concrete client, options, oracles and fuel. -/
theorem C1_connect_never_surfaces_dial_error_witness :
    clientEmpty.connect ⟨2, 5⟩ parseOkFn dialsAlwaysFail 2
      = some ⟨ConnectOutcome.returned (Except.ok ()), 2, clientEmpty⟩ ∧
    (Except.ok () : Except (ET Nat) Unit) = Except.ok () := by
  have h1 : clientEmpty.connect ⟨2, 5⟩ parseOkFn dialsAlwaysFail 2
      = some ⟨ConnectOutcome.returned (Except.ok ()), 2, clientEmpty⟩ := rfl
  exact ⟨h1, C1_connect_never_surfaces_dial_error clientEmpty ⟨2, 5⟩ parseOkFn
    dialsAlwaysFail 2 _ _ h1 rfl⟩

/-- C2: with retry budget N greater than 0 and a dial that fails every time,
connect makes exactly N dial attempts, returns Ok, and leaves the state
exactly as it was; if the slot was empty, is_connected is false afterwards
and a subsequent send fails with NetNotConnected. -/
theorem C2_exhausted_retries {M ε : Type}
    (c : ClientInner M ε) (N wait : Nat) (hN : 0 < N)
    (parse : String → Option SockAddr) (sa : SockAddr)
    (hparse : parse c.addr = some sa)
    (dials : Nat → Except (ET ε) (Option (Endpoint M ε)))
    (hfail : ∀ i, ∃ er, dials i = Except.error er) (m : M) :
    ∃ res, c.connect ⟨N, wait⟩ parse dials N = some res ∧
      res.attempts = N ∧
      res.outcome = ConnectOutcome.returned (Except.ok ()) ∧
      res.state = c ∧
      (c.opt_endpoint = none →
        (res.state.is_connected).fst = false ∧
        (res.state.send m).result = Except.error ET.NetNotConnected) := by
  have hloop := connectLoop_allFail N sa dials (by omega) hfail N N 0 (Nat.le_refl N)
  refine ⟨⟨ConnectOutcome.returned (Except.ok ()), N, c⟩, ?_, rfl, rfl, rfl, ?_⟩
  · unfold ClientInner.connect
    simp only
    rw [hparse, hloop]
    simp
  · intro hempty
    constructor
    · simp [ClientInner.is_connected, hempty]
    · simp [ClientInner.send, hempty]

/-- Witness for C2: budget 2, always-failing dial, empty client. -/
theorem C2_exhausted_retries_witness :
    0 < 2 ∧ parseOkFn clientEmpty.addr = some ⟨2130706433, 8080⟩ ∧
    (∀ i, ∃ er, dialsAlwaysFail i = Except.error er) ∧
    (∃ res, clientEmpty.connect ⟨2, 9⟩ parseOkFn dialsAlwaysFail 2 = some res ∧
      res.attempts = 2 ∧
      res.outcome = ConnectOutcome.returned (Except.ok ()) ∧
      res.state = clientEmpty ∧
      (clientEmpty.opt_endpoint = none →
        (res.state.is_connected).fst = false ∧
        (res.state.send 0).result = Except.error ET.NetNotConnected)) := by
  refine ⟨by omega, rfl, fun i => ⟨ET.errOther 0, rfl⟩, ?_⟩
  exact C2_exhausted_retries clientEmpty 2 9 (by omega) parseOkFn ⟨2130706433, 8080⟩
    rfl dialsAlwaysFail (fun i => ⟨ET.errOther 0, rfl⟩) 0

/-- C3: if the dial fails on attempts 1..k-1 and succeeds on attempt k ≤ N
returning endpoint B, connect stops after exactly k dial attempts (no
attempt k+1 is consulted: any dial oracle agreeing on the first k attempts
produces the same run), stores B in the slot replacing whatever was there,
and subsequent send and recv delegate to B. -/
theorem C3_success_stops_retry_and_replaces {M ε : Type}
    (c : ClientInner M ε) (N wait : Nat)
    (parse : String → Option SockAddr) (sa : SockAddr)
    (hparse : parse c.addr = some sa)
    (dials : Nat → Except (ET ε) (Option (Endpoint M ε)))
    (B : Endpoint M ε) (k : Nat) (hk1 : 1 ≤ k) (hkN : k ≤ N)
    (hfail : ∀ t, t < k - 1 → ∃ er, dials t = Except.error er)
    (hsucc : dials (k - 1) = Except.ok (some B)) (m : M) :
    ∃ res, c.connect ⟨N, wait⟩ parse dials N = some res ∧
      res.attempts = k ∧
      res.outcome = ConnectOutcome.returned (Except.ok ()) ∧
      res.state.opt_endpoint = some B ∧
      (res.state.send m).result = B.sendFn m ∧
      (res.state.recv).result = B.recvFn ∧
      (∀ dials2, (∀ t, t < k → dials2 t = dials t) →
        c.connect ⟨N, wait⟩ parse dials2 N
          = c.connect ⟨N, wait⟩ parse dials N) := by
  have hloop := connectLoop_success N sa dials (some B) (k - 1) N N 0
    (Or.inr (by omega)) (by omega)
    (fun t ht => by simpa using hfail t ht)
    (by simpa using hsucc)
  have hk : 0 + (k - 1) + 1 = k := by omega
  rw [hk] at hloop
  have hconn : c.connect ⟨N, wait⟩ parse dials N
      = some ⟨ConnectOutcome.returned (Except.ok ()), k,
              { c with opt_endpoint := some B }⟩ := by
    unfold ClientInner.connect
    simp only
    rw [hparse, hloop]
  refine ⟨_, hconn, rfl, rfl, rfl, ?_, ?_, ?_⟩
  · simp [ClientInner.send]
  · simp [ClientInner.recv]
  · intro dials2 hag
    have hloop2 := connectLoop_congr N (some sa) dials dials2 N N 0 _ _
      hloop (fun t _ ht2 => hag t ht2)
    have hconn2 : c.connect ⟨N, wait⟩ parse dials2 N
        = some ⟨ConnectOutcome.returned (Except.ok ()), k,
                { c with opt_endpoint := some B }⟩ := by
      unfold ClientInner.connect
      simp only
      rw [hparse, hloop2]
    rw [hconn, hconn2]

/-- Witness for C3: slot holds epA, dial fails once then returns epB on
attempt 2 with budget 5; afterwards the slot holds epB. -/
theorem C3_success_stops_retry_and_replaces_witness :
    1 ≤ 2 ∧ 2 ≤ 5 ∧
    parseOkFn clientConnA.addr = some ⟨2130706433, 8080⟩ ∧
    (∀ t, t < 2 - 1 → ∃ er, dialsFailThenB t = Except.error er) ∧
    dialsFailThenB (2 - 1) = Except.ok (some epB) ∧
    (∃ res, clientConnA.connect ⟨5, 9⟩ parseOkFn dialsFailThenB 5 = some res ∧
      res.attempts = 2 ∧
      res.outcome = ConnectOutcome.returned (Except.ok ()) ∧
      res.state.opt_endpoint = some epB ∧
      (res.state.send 0).result = epB.sendFn 0 ∧
      (res.state.recv).result = epB.recvFn ∧
      (∀ dials2, (∀ t, t < 2 → dials2 t = dialsFailThenB t) →
        clientConnA.connect ⟨5, 9⟩ parseOkFn dials2 5
          = clientConnA.connect ⟨5, 9⟩ parseOkFn dialsFailThenB 5)) := by
  refine ⟨by omega, by omega, rfl, ?_, rfl, ?_⟩
  · intro t ht
    have ht0 : t = 0 := by omega
    subst ht0
    exact ⟨ET.errOther 0, rfl⟩
  · exact C3_success_stops_retry_and_replaces clientConnA 5 9 parseOkFn
      ⟨2130706433, 8080⟩ rfl dialsFailThenB epB 2 (by omega) (by omega)
      (fun t ht => by
        have ht0 : t = 0 := by omega
        subst ht0
        exact ⟨ET.errOther 0, rfl⟩)
      rfl 0

/-- C4: send and recv on a client whose slot is empty fail immediately with
NetNotConnected, leave the state unchanged, and perform no endpoint
operation (no endpoint event appears in their traces). -/
theorem C4_not_connected_fails_fast {M ε : Type}
    (c : ClientInner M ε) (hempty : c.opt_endpoint = none) (m : M) :
    (c.send m).result = Except.error ET.NetNotConnected ∧
    (c.send m).state = c ∧
    (∀ ev ∈ (c.send m).events, ev.isEp = false) ∧
    (c.recv).result = Except.error ET.NetNotConnected ∧
    (c.recv).state = c ∧
    (∀ ev ∈ (c.recv).events, ev.isEp = false) := by
  refine ⟨?_, ?_, ?_, ?_, ?_, ?_⟩ <;>
    simp [ClientInner.send, ClientInner.recv, hempty, Event.isEp]

/-- Witness for C4 at the concrete empty client. -/
theorem C4_not_connected_fails_fast_witness :
    clientEmpty.opt_endpoint = none ∧
    ((clientEmpty.send 0).result = Except.error ET.NetNotConnected ∧
     (clientEmpty.send 0).state = clientEmpty ∧
     (∀ ev ∈ (clientEmpty.send 0).events, ev.isEp = false) ∧
     (clientEmpty.recv).result = Except.error ET.NetNotConnected ∧
     (clientEmpty.recv).state = clientEmpty ∧
     (∀ ev ∈ (clientEmpty.recv).events, ev.isEp = false)) :=
  ⟨rfl, C4_not_connected_fails_fast clientEmpty rfl 0⟩

/-- C5: send and recv on a client whose slot holds endpoint e delegate to e
and return its result unchanged, whatever that result is, and do not modify
the slot or any other field, in particular not on a transport error. -/
theorem C5_delegates_verbatim {M ε : Type}
    (c : ClientInner M ε) (e : Endpoint M ε)
    (he : c.opt_endpoint = some e) (m : M) :
    (c.send m).result = e.sendFn m ∧
    (c.send m).state = c ∧
    (c.recv).result = e.recvFn ∧
    (c.recv).state = c := by
  refine ⟨?_, ?_, ?_, ?_⟩ <;> simp [ClientInner.send, ClientInner.recv, he]

/-- Witness for C5 at a client holding the failing endpoint epB: the
transport errors come back verbatim and the slot is untouched. -/
theorem C5_delegates_verbatim_witness :
    ({ clientEmpty with opt_endpoint := some epB } : ClientInner Nat Nat).opt_endpoint
        = some epB ∧
    (({ clientEmpty with opt_endpoint := some epB } : ClientInner Nat Nat).send 5).result
        = epB.sendFn 5 ∧
    (({ clientEmpty with opt_endpoint := some epB } : ClientInner Nat Nat).send 5).state
        = { clientEmpty with opt_endpoint := some epB } ∧
    (({ clientEmpty with opt_endpoint := some epB } : ClientInner Nat Nat).recv).result
        = epB.recvFn ∧
    (({ clientEmpty with opt_endpoint := some epB } : ClientInner Nat Nat).recv).state
        = { clientEmpty with opt_endpoint := some epB } :=
  ⟨rfl, C5_delegates_verbatim { clientEmpty with opt_endpoint := some epB } epB rfl 5⟩

/-- C6 counterexample: the claim states that in every public operation the
exclusive lock is released before delegating to the endpoint I/O, i.e. that
no endpoint operation occurs while the lock is held. On the concrete
connected client, send performs its endpoint operation while the lock is
held (the source drops the guard only at function end), so the claim as
stated is false. -/
theorem C6_lock_discipline_counterexample :
    lockHeldDuringEp ((clientConnA.send 0).events) false = true := rfl

/-- C6 amended: in send and recv the lock is acquired to read the slot and
remains held across the delegated endpoint operation; it is released only
after the delegate returns, so endpoint I/O does occur under the lock. -/
theorem C6_lock_held_across_endpoint_io {M ε : Type}
    (c : ClientInner M ε) (e : Endpoint M ε)
    (he : c.opt_endpoint = some e) (m : M) :
    (c.send m).events
        = [Event.lockAcquire, Event.epSend m, Event.lockRelease] ∧
    (c.recv).events
        = [Event.lockAcquire, Event.epRecv, Event.lockRelease] ∧
    lockHeldDuringEp ((c.send m).events) false = true ∧
    lockHeldDuringEp ((c.recv).events) false = true := by
  refine ⟨?_, ?_, ?_, ?_⟩ <;>
    simp [ClientInner.send, ClientInner.recv, he, lockHeldDuringEp]

/-- Witness for the amended C6 at the concrete connected client. -/
theorem C6_lock_held_across_endpoint_io_witness :
    clientConnA.opt_endpoint = some epA ∧
    ((clientConnA.send 3).events
        = [Event.lockAcquire, Event.epSend 3, Event.lockRelease] ∧
     (clientConnA.recv).events
        = [Event.lockAcquire, Event.epRecv, Event.lockRelease] ∧
     lockHeldDuringEp ((clientConnA.send 3).events) false = true ∧
     lockHeldDuringEp ((clientConnA.recv).events) false = true) :=
  ⟨rfl, C6_lock_held_across_endpoint_io clientConnA epA rfl 3⟩

/-- C7: with retry_max equal to 0, a parseable address and a dial that
fails on every attempt, the retry loop never exits, whatever the fuel; with
retry_max equal to N greater than 0 the call returns within fuel N after at
most N dial attempts, whatever the parse and dial outcomes. -/
theorem C7_zero_budget_loops_positive_budget_terminates {M ε : Type} :
    (∀ (c : ClientInner M ε) (wait : Nat) (parse : String → Option SockAddr)
        (sa : SockAddr)
        (dials : Nat → Except (ET ε) (Option (Endpoint M ε))),
      parse c.addr = some sa →
      (∀ i, ∃ er, dials i = Except.error er) →
      ∀ fuel, c.connect ⟨0, wait⟩ parse dials fuel = none) ∧
    (∀ (c : ClientInner M ε) (N wait : Nat)
        (parse : String → Option SockAddr)
        (dials : Nat → Except (ET ε) (Option (Endpoint M ε))),
      0 < N →
      ∃ res, c.connect ⟨N, wait⟩ parse dials N = some res ∧
        res.attempts ≤ N) := by
  constructor
  · intro c wait parse sa dials hparse hfail fuel
    unfold ClientInner.connect
    simp only
    rw [hparse, connectLoop_allFail_unbounded sa dials hfail fuel 0 0]
  · intro c N wait parse dials hN
    obtain ⟨ex, a2, hrun, hle⟩ :=
      connectLoop_terminates N (parse c.addr) dials (by omega) N N 0 (Nat.le_refl N)
    unfold ClientInner.connect
    simp only
    rw [hrun]
    cases ex with
    | panicked => exact ⟨_, rfl, by show a2 ≤ N; omega⟩
    | done opt_ep => exact ⟨_, rfl, by show a2 ≤ N; omega⟩

/-- Witness for C7 at concrete clients and oracles. -/
theorem C7_zero_budget_loops_positive_budget_terminates_witness :
    clientEmpty.connect ⟨0, 5⟩ parseOkFn dialsAlwaysFail 100 = none ∧
    (∃ res, clientEmpty.connect ⟨3, 5⟩ parseOkFn dialsAlwaysFail 3 = some res ∧
      res.attempts ≤ 3) :=
  ⟨(C7_zero_budget_loops_positive_budget_terminates).1 clientEmpty 5 parseOkFn
      ⟨2130706433, 8080⟩ dialsAlwaysFail rfl (fun i => ⟨ET.errOther 0, rfl⟩) 100,
   (C7_zero_budget_loops_positive_budget_terminates).2 clientEmpty 3 5 parseOkFn
      dialsAlwaysFail (by omega)⟩

/-- C8: is_connected returns true exactly when the slot holds an endpoint,
and it changes nothing in the client state. -/
theorem C8_is_connected_reports_slot {M ε : Type} (c : ClientInner M ε) :
    ((c.is_connected).fst = true ↔ ∃ e, c.opt_endpoint = some e) ∧
    (c.is_connected).snd = c := by
  constructor
  · simp [ClientInner.is_connected, Option.isSome_iff_exists]
  · rfl

/-- C9: if the address string does not parse, every connect call panics on
the unwrap in its first loop iteration, before any dial attempt (the
attempt count at the panic is 0), whatever the options, dial outcomes and
fuel; the state is untouched. -/
theorem C9_bad_address_panics {M ε : Type}
    (c : ClientInner M ε) (parse : String → Option SockAddr)
    (hbad : parse c.addr = none) (opt : OptClientConnect)
    (dials : Nat → Except (ET ε) (Option (Endpoint M ε))) (fuel : Nat) :
    c.connect opt parse dials (fuel + 1)
      = some ⟨ConnectOutcome.panicked, 0, c⟩ := by
  unfold ClientInner.connect
  rw [hbad]
  have hstep : connectLoop (M := M) (ε := ε) opt.retry_max none dials
      (fuel + 1) opt.retry_max 0 = some (LoopExit.panicked, 0) := by
    simp only [connectLoop]
    rw [if_pos (Nat.eq_zero_or_pos opt.retry_max)]
  rw [hstep]

/-- Witness for C9 at the concrete client with a failing parse. -/
theorem C9_bad_address_panics_witness :
    parseFailFn clientEmpty.addr = none ∧
    clientEmpty.connect ⟨4, 5⟩ parseFailFn dialsAlwaysFail 10
      = some ⟨ConnectOutcome.panicked, 0, clientEmpty⟩ :=
  ⟨rfl, C9_bad_address_panics clientEmpty parseFailFn rfl ⟨4, 5⟩ dialsAlwaysFail 9⟩

/-- C10: if the dial reports success carrying no endpoint on attempt k ≤ N
after failing on the earlier attempts, connect stops retrying immediately
after exactly k attempts, abandons the remaining budget, leaves the state
(in particular the slot) unchanged and returns Ok, so is_connected stays
false when the slot was empty. -/
theorem C10_ok_without_endpoint_stops_retry {M ε : Type}
    (c : ClientInner M ε) (N wait : Nat)
    (parse : String → Option SockAddr) (sa : SockAddr)
    (hparse : parse c.addr = some sa)
    (dials : Nat → Except (ET ε) (Option (Endpoint M ε)))
    (k : Nat) (hk1 : 1 ≤ k) (hkN : k ≤ N)
    (hfail : ∀ t, t < k - 1 → ∃ er, dials t = Except.error er)
    (hsucc : dials (k - 1) = Except.ok none) :
    ∃ res, c.connect ⟨N, wait⟩ parse dials N = some res ∧
      res.attempts = k ∧
      res.outcome = ConnectOutcome.returned (Except.ok ()) ∧
      res.state = c ∧
      (c.opt_endpoint = none → (res.state.is_connected).fst = false) := by
  have hloop := connectLoop_success N sa dials none (k - 1) N N 0
    (Or.inr (by omega)) (by omega)
    (fun t ht => by simpa using hfail t ht)
    (by simpa using hsucc)
  have hk : 0 + (k - 1) + 1 = k := by omega
  rw [hk] at hloop
  have hconn : c.connect ⟨N, wait⟩ parse dials N
      = some ⟨ConnectOutcome.returned (Except.ok ()), k, c⟩ := by
    unfold ClientInner.connect
    simp only
    rw [hparse, hloop]
  refine ⟨_, hconn, rfl, rfl, rfl, ?_⟩
  intro hempty
  simp [ClientInner.is_connected, hempty]

/-- Witness for C10: dial fails once, then reports Ok with no endpoint on
attempt 2, budget 5; the slot stays empty and only 2 attempts are made. -/
theorem C10_ok_without_endpoint_stops_retry_witness :
    1 ≤ 2 ∧ 2 ≤ 5 ∧
    parseOkFn clientEmpty.addr = some ⟨2130706433, 8080⟩ ∧
    (∀ t, t < 2 - 1 → ∃ er, dialsFailThenOkNone t = Except.error er) ∧
    dialsFailThenOkNone (2 - 1) = Except.ok none ∧
    (∃ res, clientEmpty.connect ⟨5, 9⟩ parseOkFn dialsFailThenOkNone 5 = some res ∧
      res.attempts = 2 ∧
      res.outcome = ConnectOutcome.returned (Except.ok ()) ∧
      res.state = clientEmpty ∧
      (clientEmpty.opt_endpoint = none → (res.state.is_connected).fst = false)) := by
  refine ⟨by omega, by omega, rfl, ?_, rfl, ?_⟩
  · intro t ht
    have ht0 : t = 0 := by omega
    subst ht0
    exact ⟨ET.errOther 0, rfl⟩
  · exact C10_ok_without_endpoint_stops_retry clientEmpty 5 9 parseOkFn
      ⟨2130706433, 8080⟩ rfl dialsFailThenOkNone 2 (by omega) (by omega)
      (fun t ht => by
        have ht0 : t = 0 := by omega
        subst ht0
        exact ⟨ET.errOther 0, rfl⟩)
      rfl

end ScuptNet
